import Mathlib

/-!
Verification of `app/packages/app/src/components/Filters/NumericFieldFilter.state.ts`.

The module derives numeric-field filter state (bounds, range, none flag) from
dataset statistics and a persisted per-(path, modal) filter store, and writes
back normalized filter records.  All functions of the module touch the store at
a single key `(modal, path)`, so the store is embedded as the value at that key
(`Option NumericFilter`).  JavaScript values flowing through the module (bound
entries, range endpoints) are embedded as `JVal`: `null`, `undefined`, numbers,
and the wrapped date objects `\x7bdatetime: v\x7d` returned by date aggregations.
-/

namespace NumericFieldFilter

/-- A JavaScript value as it occurs in bounds, ranges and statistics results:
`null`, `undefined`, a number, or a wrapped date object with a `datetime`
payload. Numbers are embedded as integers; only equality and order are used. -/
inductive JVal where
  | null : JVal
  | undefined : JVal
  | num : Int → JVal
  | date : Int → JVal
deriving DecidableEq, Repr

/-- JavaScript truthiness of a `JVal` (`null`, `undefined` and `0` are falsy;
objects are truthy). -/
def JVal.truthy : JVal → Bool
  | .null => false
  | .undefined => false
  | .num n => n != 0
  | .date _ => true

/-- JavaScript property access `v.datetime`: the payload of a wrapped date
object, `undefined` otherwise. -/
def JVal.datetimeField : JVal → JVal
  | .date d => .num d
  | _ => .undefined

/-- The mapper `(v) => (v ? v.datetime : v)` applied to each bound entry of a
date / date-time field in `boundsAtom`. -/
def JVal.jsUnwrapDatetime (v : JVal) : JVal :=
  if v.truthy then v.datetimeField else v

/-- JavaScript `<` on the values that reach the bound comparisons: numeric
comparison, with `null` converting to `0` and `undefined` or a plain object
yielding `NaN` (hence `false`). -/
def jslt : JVal → JVal → Bool
  | .num a, .num b => a < b
  | .num a, .null => a < 0
  | .null, .num b => 0 < b
  | _, _ => false

/-- A `Range` on the TypeScript side: a two-element array of nullable bounds. -/
abbrev JRange := JVal × JVal

/-- One entry of `selectors.datasetStats`: a field name, an aggregation kind
tag (`_CLS`), and a two-element result payload. -/
structure StatEntry where
  name : String
  cls : String
  result : JRange
deriving DecidableEq, Repr

/-- The filter record `\x7brange, none, _CLS\x7d` stored per (path, modal) key. -/
structure NumericFilter where
  range : JRange
  none : Bool
  cls : String
deriving DecidableEq, Repr

/-- Modelled from the spec: the type-tag constant `LIST_FIELD` from
`utils/labels` (not under `src/`); only equality with map entries matters. -/
def LIST_FIELD : String := "fiftyone.core.fields.ListField"

/-- Modelled from the spec: the type-tag constant `DATE_TIME_FIELD` from
`utils/labels` (not under `src/`). -/
def DATE_TIME_FIELD : String := "fiftyone.core.fields.DateTimeField"

/-- Modelled from the spec: the type-tag constant `DATE_FIELD` from
`utils/labels` (not under `src/`). -/
def DATE_FIELD : String := "fiftyone.core.fields.DateField"

/-- Modelled from the spec: the aggregation kind tag `AGGS.BOUNDS` from
`utils/labels` (not under `src/`); only equality with `_CLS` matters. -/
def AGGS_BOUNDS : String := "Bounds"

/-- The field-type metadata: the primitive type map and the list-subfield type
map, each from field path to an optional type tag (absent = `undefined`). -/
structure TypeMaps where
  primitivesMap : String → Option String
  primitivesSubfieldMap : String → Option String

/-- `isDateTimeField`: resolves through the list-subfield map when the
top-level type is `LIST_FIELD`, then compares with `DATE_TIME_FIELD`. -/
def isDateTimeField (tm : TypeMaps) (name : String) : Bool :=
  let map := if tm.primitivesMap name == some LIST_FIELD then
    tm.primitivesSubfieldMap else tm.primitivesMap
  map name == some DATE_TIME_FIELD

/-- `isDateField`: resolves through the list-subfield map when the top-level
type is `LIST_FIELD`, then compares with `DATE_FIELD`. -/
def isDateField (tm : TypeMaps) (name : String) : Bool :=
  let map := if tm.primitivesMap name == some LIST_FIELD then
    tm.primitivesSubfieldMap else tm.primitivesMap
  map name == some DATE_FIELD

/-- The step function of the `reduce` inside `boundsAtom`: a non-matching
entry keeps the accumulator; a matching entry replaces it with the entry's
result, unwrapped through `datetime` for date / date-time fields. -/
def boundsStep (isDateOrDateTime : Bool) (path : String) (acc : JRange)
    (cur : StatEntry) : JRange :=
  if cur.name != path || cur.cls != AGGS_BOUNDS then acc
  else if isDateOrDateTime then
    (cur.result.1.jsUnwrapDatetime, cur.result.2.jsUnwrapDatetime)
  else cur.result

/-- `boundsAtom`: reduces the dataset statistics (defaulting to `[]` when
absent) to the bounds of `path`, returns `[null, null]` when both bounds are
null, and otherwise widens by the `defaultRange` override when supplied. -/
def boundsAtom (tm : TypeMaps) (stats : Option (List StatEntry))
    (path : String) (defaultRange : Option JRange) : JRange :=
  let isDateOrDateTime := isDateTimeField tm path || isDateField tm path
  let bounds := (stats.getD []).foldl
    (boundsStep isDateOrDateTime path) (JVal.null, JVal.null)
  if bounds.1 == JVal.null && bounds.2 == JVal.null then bounds
  else
    match defaultRange with
    | some (maxMin, minMax) =>
      (if jslt maxMin bounds.1 then maxMin else bounds.1,
       if jslt bounds.2 minMax then minMax else bounds.2)
    | Option.none => (bounds.1, bounds.2)

/-- `meetsDefault`: the record's range equals the bounds at every position and
its `none` flag is `true`. -/
def meetsDefault (filter : NumericFilter) (bounds : JRange) : Bool :=
  (filter.range.1 == bounds.1 && filter.range.2 == bounds.2)
    && filter.none == true

/-- `getFilter`: the stored record for the key, defaulting to
`\x7b_CLS: "numeric", range: bounds, none: true\x7d` when absent; if the record with
`none` forced `true` does not meet the default, `none` is forced `false`. -/
def getFilter (tm : TypeMaps) (stats : Option (List StatEntry)) (path : String)
    (defaultRange : Option JRange) (stored : Option NumericFilter) :
    NumericFilter :=
  let bounds := boundsAtom tm stats path defaultRange
  let result : NumericFilter :=
    match stored with
    | Option.none => { range := bounds, none := true, cls := "numeric" }
    | some f => f
  if !(meetsDefault { result with none := true } bounds) then
    { result with none := false }
  else result

/-- The `[key]: value` edit passed to `setFilter`: either the `range` key with
a range value, or the `none` key with a boolean value. -/
inductive FilterEdit where
  | range : JRange → FilterEdit
  | none : Bool → FilterEdit
deriving DecidableEq, Repr

/-- `setFilter`: merges the edit into the current derived filter and forces
`_CLS: "numeric"`; the check record carries `none: true` (coerced from the
value when the edited key is `none`); if the check meets the default the store
entry is cleared, otherwise the merged record with `none: false` is stored. -/
def setFilter (tm : TypeMaps) (stats : Option (List StatEntry)) (path : String)
    (stored : Option NumericFilter) (edit : FilterEdit)
    (defaultRange : Option JRange) : Option NumericFilter :=
  let bounds := boundsAtom tm stats path defaultRange
  let current := getFilter tm stats path defaultRange stored
  let filter : NumericFilter :=
    match edit with
    | .range r => { current with range := r, cls := "numeric" }
    | .none b => { current with none := b, cls := "numeric" }
  let check : NumericFilter :=
    match edit with
    | .range _ => { filter with none := true }
    | .none b => { filter with none := b }
  if meetsDefault check bounds then Option.none
  else some { filter with none := false }

/-- The `get` of `rangeAtom`: the derived filter's range. -/
def rangeAtom (tm : TypeMaps) (stats : Option (List StatEntry)) (path : String)
    (defaultRange : Option JRange) (stored : Option NumericFilter) : JRange :=
  (getFilter tm stats path defaultRange stored).range

/-- The `set` of `rangeAtom`: `setFilter` at key `range`. -/
def rangeAtomSet (tm : TypeMaps) (stats : Option (List StatEntry))
    (path : String) (defaultRange : Option JRange)
    (stored : Option NumericFilter) (range : JRange) : Option NumericFilter :=
  setFilter tm stats path stored (FilterEdit.range range) defaultRange

/-- The `get` of `noneAtom`: the derived filter's none flag. -/
def noneAtom (tm : TypeMaps) (stats : Option (List StatEntry)) (path : String)
    (defaultRange : Option JRange) (stored : Option NumericFilter) : Bool :=
  (getFilter tm stats path defaultRange stored).none

/-- The `set` of `noneAtom`: `setFilter` at key `none`. -/
def noneAtomSet (tm : TypeMaps) (stats : Option (List StatEntry))
    (path : String) (defaultRange : Option JRange)
    (stored : Option NumericFilter) (value : Bool) : Option NumericFilter :=
  setFilter tm stats path stored (FilterEdit.none value) defaultRange

/-- `fieldIsFiltered`: `!none`, or some bound position where range and bounds
differ with both non-null, provided the bounds are non-degenerate. -/
def fieldIsFiltered (tm : TypeMaps) (stats : Option (List StatEntry))
    (path : String) (defaultRange : Option JRange)
    (stored : Option NumericFilter) : Bool :=
  let none := noneAtom tm stats path defaultRange stored
  let range := rangeAtom tm stats path defaultRange stored
  let bounds := boundsAtom tm stats path defaultRange
  !none ||
    ((range.1 != bounds.1 && bounds.1 != JVal.null && range.1 != JVal.null
        || range.2 != bounds.2 && bounds.2 != JVal.null && range.2 != JVal.null)
      && bounds.1 != bounds.2)

/-- A finite sequence of `setFilter` writes applied to the store entry. -/
def applyEdits (tm : TypeMaps) (stats : Option (List StatEntry)) (path : String)
    (defaultRange : Option JRange) (stored : Option NumericFilter)
    (edits : List FilterEdit) : Option NumericFilter :=
  edits.foldl (fun st e => setFilter tm stats path st e defaultRange) stored

/-- The merged record of a write: the new value merged into the current
derived filter, with the kind-tag forced to `"numeric"`. -/
def mergedRecord (current : NumericFilter) (edit : FilterEdit) : NumericFilter :=
  match edit with
  | .range r => { current with range := r, cls := "numeric" }
  | .none b => { current with none := b, cls := "numeric" }

/-- Write normalization following the spec's words, literally: the merged
record is compared against the default record `\x7brange: bounds, none: true\x7d`,
with the merged record's `none` replaced by the boolean coercion of the new
value only when the edited key is `none` (a range edit leaves the merged
record's `none` untouched for the comparison); on equality the store entry is
cleared, otherwise the merged record with `none` forced `false` is stored. -/
def setFilterSpecLit (tm : TypeMaps) (stats : Option (List StatEntry))
    (path : String) (stored : Option NumericFilter) (edit : FilterEdit)
    (defaultRange : Option JRange) : Option NumericFilter :=
  let bounds := boundsAtom tm stats path defaultRange
  let merged := mergedRecord (getFilter tm stats path defaultRange stored) edit
  let checkNone : Bool :=
    match edit with
    | .range _ => merged.none
    | .none b => b
  if merged.range = bounds ∧ checkNone = true then Option.none
  else some { merged with none := false }

/-- Write normalization following the spec's words, amended: the comparison
record's `none` is forced `true` when the edited key is `range`, and is the
boolean coercion of the new value when the edited key is `none`; the store
entry is cleared when that record equals the default record
`\x7brange: bounds, none: true\x7d`, otherwise the merged record with `none` forced
`false` is stored. -/
def setFilterSpecAmended (tm : TypeMaps) (stats : Option (List StatEntry))
    (path : String) (stored : Option NumericFilter) (edit : FilterEdit)
    (defaultRange : Option JRange) : Option NumericFilter :=
  let bounds := boundsAtom tm stats path defaultRange
  let merged := mergedRecord (getFilter tm stats path defaultRange stored) edit
  let checkNone : Bool :=
    match edit with
    | .range _ => true
    | .none b => b
  if merged.range = bounds ∧ checkNone = true then Option.none
  else some { merged with none := false }

/-- A concrete type-map environment: no field has a recorded type. -/
def sampleTypeMaps : TypeMaps :=
  { primitivesMap := fun _ => Option.none,
    primitivesSubfieldMap := fun _ => Option.none }

/-- A concrete type-map environment classifying every field as a date field. -/
def dateTypeMaps : TypeMaps :=
  { primitivesMap := fun _ => some DATE_FIELD,
    primitivesSubfieldMap := fun _ => Option.none }

/-- Concrete dataset statistics: one bounds entry for `confidence` with data
bounds `[0, 10]`. -/
def sampleStats : Option (List StatEntry) :=
  some [⟨"confidence", AGGS_BOUNDS, (JVal.num 0, JVal.num 10)⟩]

end NumericFieldFilter

namespace NumericFieldFilter

/-- Characterization of `meetsDefault` as a proposition. -/
lemma meetsDefault_iff (f : NumericFilter) (b : JRange) :
    meetsDefault f b = true ↔ (f.range = b ∧ f.none = true) := by
  simp [meetsDefault, Prod.ext_iff, and_assoc]

/-- With no stored record, `getFilter` yields the default record. -/
lemma getFilter_none_store (tm : TypeMaps) (stats : Option (List StatEntry))
    (path : String) (defaultRange : Option JRange) :
    getFilter tm stats path defaultRange Option.none =
      { range := boundsAtom tm stats path defaultRange, none := true,
        cls := "numeric" } := by
  simp [getFilter, meetsDefault]

/-- With a stored record, `getFilter` keeps it when its range meets the
bounds and otherwise forces `none` to `false`. -/
lemma getFilter_some (tm : TypeMaps) (stats : Option (List StatEntry))
    (path : String) (defaultRange : Option JRange) (f : NumericFilter) :
    getFilter tm stats path defaultRange (some f) =
      if meetsDefault { f with none := true }
          (boundsAtom tm stats path defaultRange) = true
      then f else { f with none := false } := by
  by_cases hm : meetsDefault { f with none := true }
      (boundsAtom tm stats path defaultRange) = true
  · simp [getFilter, hm]
  · rw [Bool.not_eq_true] at hm
    simp [getFilter, hm]

/-- When the derived `none` flag is `true`, the derived range equals the
bounds. -/
lemma rangeAtom_eq_bounds_of_none (tm : TypeMaps)
    (stats : Option (List StatEntry)) (path : String)
    (defaultRange : Option JRange) (stored : Option NumericFilter)
    (h : noneAtom tm stats path defaultRange stored = true) :
    rangeAtom tm stats path defaultRange stored
      = boundsAtom tm stats path defaultRange := by
  cases stored with
  | none => simp [rangeAtom, getFilter_none_store]
  | some f =>
    rw [noneAtom, getFilter_some] at h
    rw [rangeAtom, getFilter_some]
    by_cases hm : meetsDefault { f with none := true }
        (boundsAtom tm stats path defaultRange) = true
    · rw [if_pos hm] at h ⊢
      exact ((meetsDefault_iff _ _).mp hm).1
    · rw [if_neg hm] at h
      simp at h

/-- A record whose `none` flag is `false` never meets the default. -/
lemma meetsDefault_false_of_none (f : NumericFilter) (b : JRange)
    (h : f.none = false) : meetsDefault f b = false := by
  simp [meetsDefault, h]

/-- Every `setFilter` write either clears the store entry or stores a record
whose `none` flag is `false`. -/
lemma setFilter_shape (tm : TypeMaps) (stats : Option (List StatEntry))
    (path : String) (stored : Option NumericFilter) (edit : FilterEdit)
    (defaultRange : Option JRange) :
    setFilter tm stats path stored edit defaultRange = Option.none ∨
      ∃ f, setFilter tm stats path stored edit defaultRange = some f
        ∧ f.none = false := by
  simp only [setFilter]
  split
  · exact Or.inl rfl
  · exact Or.inr ⟨_, rfl, rfl⟩

/-- The shape invariant of `setFilter_shape` is preserved by any sequence of
writes. -/
lemma applyEdits_shape (tm : TypeMaps) (stats : Option (List StatEntry))
    (path : String) (defaultRange : Option JRange) (edits : List FilterEdit)
    (stored : Option NumericFilter)
    (h : stored = Option.none ∨ ∃ f, stored = some f ∧ f.none = false) :
    applyEdits tm stats path defaultRange stored edits = Option.none ∨
      ∃ f, applyEdits tm stats path defaultRange stored edits = some f
        ∧ f.none = false := by
  induction edits generalizing stored with
  | nil => simpa [applyEdits] using h
  | cons e es ih =>
    exact ih (setFilter tm stats path stored e defaultRange)
      (setFilter_shape tm stats path stored e defaultRange)

/-- A list of statistics entries with no entry matching `(path, bounds)`
leaves the reduce accumulator unchanged. -/
lemma foldl_boundsStep_nomatch (isD : Bool) (path : String)
    (l : List StatEntry) (acc : JRange)
    (h : ∀ e ∈ l, ¬(e.name = path ∧ e.cls = AGGS_BOUNDS)) :
    l.foldl (boundsStep isD path) acc = acc := by
  induction l generalizing acc with
  | nil => rfl
  | cons e es ih =>
    have he := h e (by simp)
    have hstep : boundsStep isD path acc e = acc := by
      rcases not_and_or.mp he with h' | h' <;> simp [boundsStep, h']
    rw [List.foldl_cons, hstep]
    exact ih acc (fun e' he' => h e' (by simp [he']))

/-- A matching statistics entry replaces the reduce accumulator by its
result, date-unwrapped when the field is a date or date-time field. -/
lemma boundsStep_match (isD : Bool) (path : String) (acc : JRange)
    (e : StatEntry) (h1 : e.name = path) (h2 : e.cls = AGGS_BOUNDS) :
    boundsStep isD path acc e =
      if isD then (e.result.1.jsUnwrapDatetime, e.result.2.jsUnwrapDatetime)
      else e.result := by
  simp [boundsStep, h1, h2]

/-- C1 (counterexample): with bounds `[0, 10]` and the stored record
`\x7brange: [0, 10], none: false\x7d`, a write of key `range` with value `[0, 10]`
clears the store entry in the code, while the claim as stated (the merged
record's `none`, which is `false` here, compared against the default's
`none: true`) persists the record instead. -/
theorem setFilter_lit_counterexample :
    setFilter sampleTypeMaps sampleStats "confidence"
        (some ⟨(JVal.num 0, JVal.num 10), false, "numeric"⟩)
        (FilterEdit.range (JVal.num 0, JVal.num 10)) Option.none
      = Option.none
    ∧ setFilterSpecLit sampleTypeMaps sampleStats "confidence"
        (some ⟨(JVal.num 0, JVal.num 10), false, "numeric"⟩)
        (FilterEdit.range (JVal.num 0, JVal.num 10)) Option.none
      = some ⟨(JVal.num 0, JVal.num 10), false, "numeric"⟩ := by
  decide

/-- C1 (amended): for every write of a key in `\x7brange, none\x7d` with a new
value, `setFilter` merges the new value into the current derived filter and,
if the merged record with its `none` forced `true` when the edited key is
`range` (respectively coerced to boolean from the new value when the edited
key is `none`) equals the default record `\x7brange: bounds, none: true\x7d`, the
persisted record is cleared; otherwise the merged record with `none` forced
`false` is persisted. -/
theorem setFilter_eq_spec_amended (tm : TypeMaps)
    (stats : Option (List StatEntry)) (path : String)
    (stored : Option NumericFilter) (edit : FilterEdit)
    (defaultRange : Option JRange) :
    setFilter tm stats path stored edit defaultRange
      = setFilterSpecAmended tm stats path stored edit defaultRange := by
  cases edit with
  | range r =>
    by_cases h1 : r.1 = (boundsAtom tm stats path defaultRange).1 <;>
      by_cases h2 : r.2 = (boundsAtom tm stats path defaultRange).2 <;>
      simp [setFilter, setFilterSpecAmended, mergedRecord, meetsDefault,
        Prod.ext_iff, h1, h2]
  | none b =>
    by_cases h1 : (getFilter tm stats path defaultRange stored).range.1
        = (boundsAtom tm stats path defaultRange).1 <;>
      by_cases h2 : (getFilter tm stats path defaultRange stored).range.2
        = (boundsAtom tm stats path defaultRange).2 <;>
      cases b <;>
      simp [setFilter, setFilterSpecAmended, mergedRecord, meetsDefault,
        Prod.ext_iff, h1, h2]

/-- C2: starting from a store state with no record for the key, after every
finite sequence of `setFilter` writes the persisted store either holds no
record or holds a record that is not default-equivalent; a redundant
default-equivalent record is never persisted. -/
theorem applyEdits_never_default (tm : TypeMaps)
    (stats : Option (List StatEntry)) (path : String)
    (defaultRange : Option JRange) (edits : List FilterEdit) :
    applyEdits tm stats path defaultRange Option.none edits = Option.none ∨
      ∃ f, applyEdits tm stats path defaultRange Option.none edits = some f
        ∧ meetsDefault f (boundsAtom tm stats path defaultRange) = false := by
  rcases applyEdits_shape tm stats path defaultRange edits Option.none
      (Or.inl rfl) with h | ⟨f, hf, hn⟩
  · exact Or.inl h
  · exact Or.inr ⟨f, hf, meetsDefault_false_of_none f _ hn⟩

/-- C3: when no filter record is stored the derived filter equals
`\x7brange: bounds, none: true\x7d`; when a record is stored whose range differs
from the bounds at some position or whose `none` is not `true`, the derived
filter's `none` is `false`; when the stored record has range equal to the
bounds and `none` equal to `true`, it is returned unchanged. -/
theorem getFilter_derivation (tm : TypeMaps) (stats : Option (List StatEntry))
    (path : String) (defaultRange : Option JRange) :
    getFilter tm stats path defaultRange Option.none
      = { range := boundsAtom tm stats path defaultRange, none := true,
          cls := "numeric" }
    ∧ (∀ f : NumericFilter,
        f.range ≠ boundsAtom tm stats path defaultRange ∨ f.none ≠ true →
        (getFilter tm stats path defaultRange (some f)).none = false)
    ∧ (∀ f : NumericFilter,
        f.range = boundsAtom tm stats path defaultRange → f.none = true →
        getFilter tm stats path defaultRange (some f) = f) := by
  refine ⟨getFilter_none_store tm stats path defaultRange, ?_, ?_⟩
  · intro f h
    rw [getFilter_some]
    by_cases hm : meetsDefault { f with none := true }
        (boundsAtom tm stats path defaultRange) = true
    · rw [if_pos hm]
      have hr : f.range = boundsAtom tm stats path defaultRange :=
        ((meetsDefault_iff _ _).mp hm).1
      rcases h with h | h
      · exact absurd hr h
      · simpa using h
    · rw [if_neg hm]
  · intro f h1 h2
    rw [getFilter_some,
      if_pos ((meetsDefault_iff { f with none := true } _).mpr ⟨h1, rfl⟩)]

/-- C3 (witness): concrete instances of the two conditional parts of
`getFilter_derivation` at bounds `[0, 10]`. -/
theorem getFilter_derivation_witness :
    (getFilter sampleTypeMaps sampleStats "confidence" Option.none
        (some ⟨(JVal.num 2, JVal.num 8), true, "numeric"⟩)).none = false
    ∧ getFilter sampleTypeMaps sampleStats "confidence" Option.none
        (some ⟨(JVal.num 0, JVal.num 10), true, "numeric"⟩)
      = ⟨(JVal.num 0, JVal.num 10), true, "numeric"⟩ := by
  constructor
  · exact (getFilter_derivation sampleTypeMaps sampleStats "confidence"
      Option.none).2.1 ⟨(JVal.num 2, JVal.num 8), true, "numeric"⟩
      (Or.inl (by decide))
  · exact (getFilter_derivation sampleTypeMaps sampleStats "confidence"
      Option.none).2.2 ⟨(JVal.num 0, JVal.num 10), true, "numeric"⟩
      (by decide) rfl

/-- C4: `fieldIsFiltered` returns `true` if and only if the derived `none`
flag is `false`, or there is a bound position at which the range differs from
the bounds with both sides non-null and the bounds are non-degenerate. -/
theorem fieldIsFiltered_iff (tm : TypeMaps) (stats : Option (List StatEntry))
    (path : String) (defaultRange : Option JRange)
    (stored : Option NumericFilter) :
    fieldIsFiltered tm stats path defaultRange stored = true ↔
      (noneAtom tm stats path defaultRange stored = false ∨
        (((rangeAtom tm stats path defaultRange stored).1
              ≠ (boundsAtom tm stats path defaultRange).1
            ∧ (boundsAtom tm stats path defaultRange).1 ≠ JVal.null
            ∧ (rangeAtom tm stats path defaultRange stored).1 ≠ JVal.null) ∨
          ((rangeAtom tm stats path defaultRange stored).2
              ≠ (boundsAtom tm stats path defaultRange).2
            ∧ (boundsAtom tm stats path defaultRange).2 ≠ JVal.null
            ∧ (rangeAtom tm stats path defaultRange stored).2 ≠ JVal.null)) ∧
          (boundsAtom tm stats path defaultRange).1
            ≠ (boundsAtom tm stats path defaultRange).2) := by
  simp [fieldIsFiltered, and_assoc]

/-- C5: when the statistics hold an effective matching bounds entry with data
bounds `[dmin, dmax]` (after date unwrapping) and the override
`[omin, omax]` is supplied, `boundsAtom` resolves to
`[min omin dmin, max omax dmax]`; when no entry matches, the override is not
applied and the result stays `[null, null]`. -/
theorem boundsAtom_override :
    (∀ (tm : TypeMaps) (path : String) (l1 l2 : List StatEntry)
        (e : StatEntry) (dmin dmax omin omax : Int),
      e.name = path → e.cls = AGGS_BOUNDS →
      (if isDateTimeField tm path || isDateField tm path
        then (e.result.1.jsUnwrapDatetime, e.result.2.jsUnwrapDatetime)
        else e.result) = (JVal.num dmin, JVal.num dmax) →
      (∀ e' ∈ l2, ¬(e'.name = path ∧ e'.cls = AGGS_BOUNDS)) →
      boundsAtom tm (some (l1 ++ e :: l2)) path
          (some (JVal.num omin, JVal.num omax))
        = (JVal.num (min omin dmin), JVal.num (max omax dmax)))
    ∧ (∀ (tm : TypeMaps) (path : String) (l : List StatEntry)
        (omin omax : Int),
      (∀ e' ∈ l, ¬(e'.name = path ∧ e'.cls = AGGS_BOUNDS)) →
      boundsAtom tm (some l) path (some (JVal.num omin, JVal.num omax))
        = (JVal.null, JVal.null)) := by
  constructor
  · intro tm path l1 l2 e dmin dmax omin omax h1 h2 hres hl2
    have hfold : (l1 ++ e :: l2).foldl
        (boundsStep (isDateTimeField tm path || isDateField tm path) path)
        (JVal.null, JVal.null) = (JVal.num dmin, JVal.num dmax) := by
      rw [List.foldl_append, List.foldl_cons,
        boundsStep_match _ _ _ _ h1 h2, hres,
        foldl_boundsStep_nomatch _ _ _ _ hl2]
    have hmin : (if jslt (JVal.num omin) (JVal.num dmin)
        then JVal.num omin else JVal.num dmin) = JVal.num (min omin dmin) := by
      by_cases h : omin < dmin
      · simp [jslt, h, min_eq_left h.le]
      · simp [jslt, h, min_eq_right (le_of_not_lt h)]
    have hmax : (if jslt (JVal.num dmax) (JVal.num omax)
        then JVal.num omax else JVal.num dmax) = JVal.num (max omax dmax) := by
      by_cases h : dmax < omax
      · simp [jslt, h, max_eq_left h.le]
      · simp [jslt, h, max_eq_right (le_of_not_lt h)]
    simp [boundsAtom, hfold, hmin, hmax]
  · intro tm path l omin omax hl
    have hfold := foldl_boundsStep_nomatch
      (isDateTimeField tm path || isDateField tm path) path l
      (JVal.null, JVal.null) hl
    simp [boundsAtom, hfold]

/-- C5 (witness): data bounds `[0, 10]` with override `[-5, 20]` resolve to
`[-5, 20]`; for a path with no matching entry the result stays
`[null, null]` despite the override. -/
theorem boundsAtom_override_witness :
    boundsAtom sampleTypeMaps sampleStats "confidence"
        (some (JVal.num (-5), JVal.num 20))
      = (JVal.num (-5), JVal.num 20)
    ∧ boundsAtom sampleTypeMaps sampleStats "other"
        (some (JVal.num (-5), JVal.num 20))
      = (JVal.null, JVal.null) := by
  constructor
  · have h := (boundsAtom_override).1 sampleTypeMaps "confidence" [] []
      ⟨"confidence", AGGS_BOUNDS, (JVal.num 0, JVal.num 10)⟩ 0 10 (-5) 20
      rfl rfl (by decide) (by simp)
    rw [show (min (-5 : Int) 0) = -5 by decide,
      show (max (20 : Int) 10) = 20 by decide] at h
    exact h
  · exact (boundsAtom_override).2 sampleTypeMaps "other"
      [⟨"confidence", AGGS_BOUNDS, (JVal.num 0, JVal.num 10)⟩] (-5) 20
      (by decide)

/-- C6: when the statistics (including when absent) contain no entry with
name equal to the path and aggregation kind equal to bounds, `boundsAtom`
returns `[null, null]` regardless of any supplied override. -/
theorem boundsAtom_nostats_null (tm : TypeMaps)
    (stats : Option (List StatEntry)) (path : String)
    (defaultRange : Option JRange)
    (h : ∀ e ∈ stats.getD [], ¬(e.name = path ∧ e.cls = AGGS_BOUNDS)) :
    boundsAtom tm stats path defaultRange = (JVal.null, JVal.null) := by
  have hfold := foldl_boundsStep_nomatch
    (isDateTimeField tm path || isDateField tm path) path (stats.getD [])
    (JVal.null, JVal.null) h
  simp [boundsAtom, hfold]

/-- C6 (witness): absent statistics with a supplied override resolve to
`[null, null]`. -/
theorem boundsAtom_nostats_null_witness :
    boundsAtom sampleTypeMaps Option.none "confidence"
        (some (JVal.num 1, JVal.num 2))
      = (JVal.null, JVal.null) :=
  boundsAtom_nostats_null sampleTypeMaps Option.none "confidence"
    (some (JVal.num 1, JVal.num 2)) (by simp)

/-- C7: for a date or date-time path, `boundsAtom` maps each element of the
matching entry's result through its embedded `datetime` payload, leaving
falsy elements unchanged; for a non-date path the result is used as-is. -/
theorem boundsAtom_date_unwrap :
    (∀ (tm : TypeMaps) (path : String) (e : StatEntry),
      (isDateTimeField tm path || isDateField tm path) = true →
      e.name = path → e.cls = AGGS_BOUNDS →
      boundsAtom tm (some [e]) path Option.none
        = (e.result.1.jsUnwrapDatetime, e.result.2.jsUnwrapDatetime))
    ∧ (∀ (tm : TypeMaps) (path : String) (e : StatEntry),
      (isDateTimeField tm path || isDateField tm path) = false →
      e.name = path → e.cls = AGGS_BOUNDS →
      boundsAtom tm (some [e]) path Option.none = e.result) := by
  constructor
  · intro tm path e hD h1 h2
    have hfold : ([e] : List StatEntry).foldl
        (boundsStep (isDateTimeField tm path || isDateField tm path) path)
        (JVal.null, JVal.null)
        = (e.result.1.jsUnwrapDatetime, e.result.2.jsUnwrapDatetime) := by
      rw [List.foldl_cons, List.foldl_nil, boundsStep_match _ _ _ _ h1 h2]
      simp [hD]
    simp only [boundsAtom, Option.getD_some, hfold]
    split
    · rfl
    · rfl
  · intro tm path e hD h1 h2
    have hfold : ([e] : List StatEntry).foldl
        (boundsStep (isDateTimeField tm path || isDateField tm path) path)
        (JVal.null, JVal.null) = e.result := by
      rw [List.foldl_cons, List.foldl_nil, boundsStep_match _ _ _ _ h1 h2]
      simp [hD]
    simp only [boundsAtom, Option.getD_some, hfold]
    split
    · rfl
    · rfl

/-- C7 (witness): a date field's wrapped bound `\x7bdatetime: 3\x7d` is unwrapped
to `3` with a `null` companion left unchanged; a non-date field's numeric
result is used as-is. -/
theorem boundsAtom_date_unwrap_witness :
    boundsAtom dateTypeMaps
        (some [⟨"d", AGGS_BOUNDS, (JVal.date 3, JVal.null)⟩]) "d" Option.none
      = (JVal.num 3, JVal.null)
    ∧ boundsAtom sampleTypeMaps sampleStats "confidence" Option.none
      = (JVal.num 0, JVal.num 10) := by
  constructor
  · simpa [JVal.jsUnwrapDatetime, JVal.truthy, JVal.datetimeField] using
      (boundsAtom_date_unwrap).1 dateTypeMaps "d"
        ⟨"d", AGGS_BOUNDS, (JVal.date 3, JVal.null)⟩ (by decide) rfl rfl
  · exact (boundsAtom_date_unwrap).2 sampleTypeMaps "confidence"
      ⟨"confidence", AGGS_BOUNDS, (JVal.num 0, JVal.num 10)⟩ (by decide)
      rfl rfl

/-- C8: with bounds `[0, 10]` and no stored filter, writing range `[2, 8]`
stores `\x7brange: [2, 8], none: false\x7d`, after which `noneAtom` is `false`,
`rangeAtom` is `[2, 8]` and `fieldIsFiltered` is `true`; writing the bounds
value back clears the stored record, after which `noneAtom` is `true`,
`rangeAtom` equals the bounds and `fieldIsFiltered` is `false`. -/
theorem roundTrip :
    rangeAtomSet sampleTypeMaps sampleStats "confidence" Option.none
        Option.none (JVal.num 2, JVal.num 8)
      = some ⟨(JVal.num 2, JVal.num 8), false, "numeric"⟩
    ∧ noneAtom sampleTypeMaps sampleStats "confidence" Option.none
        (some ⟨(JVal.num 2, JVal.num 8), false, "numeric"⟩) = false
    ∧ rangeAtom sampleTypeMaps sampleStats "confidence" Option.none
        (some ⟨(JVal.num 2, JVal.num 8), false, "numeric"⟩)
      = (JVal.num 2, JVal.num 8)
    ∧ fieldIsFiltered sampleTypeMaps sampleStats "confidence" Option.none
        (some ⟨(JVal.num 2, JVal.num 8), false, "numeric"⟩) = true
    ∧ rangeAtomSet sampleTypeMaps sampleStats "confidence" Option.none
        (some ⟨(JVal.num 2, JVal.num 8), false, "numeric"⟩)
        (JVal.num 0, JVal.num 10)
      = Option.none
    ∧ noneAtom sampleTypeMaps sampleStats "confidence" Option.none
        Option.none = true
    ∧ rangeAtom sampleTypeMaps sampleStats "confidence" Option.none
        Option.none
      = boundsAtom sampleTypeMaps sampleStats "confidence" Option.none
    ∧ fieldIsFiltered sampleTypeMaps sampleStats "confidence" Option.none
        Option.none = false := by
  decide

/-- C9: `fieldIsFiltered` returns exactly the negation of `noneAtom` for
every type-map, statistics, override and store state. -/
theorem fieldIsFiltered_eq_not_none (tm : TypeMaps)
    (stats : Option (List StatEntry)) (path : String)
    (defaultRange : Option JRange) (stored : Option NumericFilter) :
    fieldIsFiltered tm stats path defaultRange stored
      = !(noneAtom tm stats path defaultRange stored) := by
  cases hn : noneAtom tm stats path defaultRange stored with
  | false => simp [fieldIsFiltered, hn]
  | true =>
    have hr := rangeAtom_eq_bounds_of_none tm stats path defaultRange stored hn
    simp [fieldIsFiltered, hn, hr]

/-- C10: a stored record with range equal to the bounds and `none` equal to
`false` is cleared entirely by a subsequent write of key `range` with the
bounds value; such a record is reachable by writing `none = false` on an
empty store entry. -/
theorem setFilter_bounds_write_clears :
    (∀ (tm : TypeMaps) (stats : Option (List StatEntry)) (path : String)
        (defaultRange : Option JRange) (f : NumericFilter),
      f.range = boundsAtom tm stats path defaultRange → f.none = false →
      setFilter tm stats path (some f)
          (FilterEdit.range (boundsAtom tm stats path defaultRange))
          defaultRange
        = Option.none)
    ∧ (∀ (tm : TypeMaps) (stats : Option (List StatEntry)) (path : String)
        (defaultRange : Option JRange),
      noneAtomSet tm stats path defaultRange Option.none false
        = some { range := boundsAtom tm stats path defaultRange,
                 none := false, cls := "numeric" }) := by
  constructor
  · intro tm stats path defaultRange f h1 h2
    simp [setFilter, meetsDefault]
  · intro tm stats path defaultRange
    simp [noneAtomSet, setFilter, getFilter_none_store, meetsDefault]

/-- C10 (witness): with bounds `[0, 10]` and stored record
`\x7brange: [0, 10], none: false\x7d`, writing range equal to the bounds clears
the store entry. -/
theorem setFilter_bounds_write_clears_witness :
    setFilter sampleTypeMaps sampleStats "confidence"
        (some ⟨(JVal.num 0, JVal.num 10), false, "numeric"⟩)
        (FilterEdit.range
          (boundsAtom sampleTypeMaps sampleStats "confidence" Option.none))
        Option.none
      = Option.none :=
  (setFilter_bounds_write_clears).1 sampleTypeMaps sampleStats "confidence"
    Option.none ⟨(JVal.num 0, JVal.num 10), false, "numeric"⟩ (by decide) rfl

end NumericFieldFilter
